import Mathlib

/-!
Shallow embedding of the `regex404` command-line program (`src/main.rs`).

Strings are modelled as `List Char`; on the ASCII inputs considered here the
Rust byte indices used by `str::find` / `String::split_off` coincide with
character indices, so all offsets below are character offsets.

The external regex engine (the `regex` crate) is treated as an opaque
collaborator, following the program's own design: a compiled regex is a record
(`RegexModel`) exposing its source text, its declaration-ordered list of
capture-group names (group 0 and unnamed groups appear as `none`), a
first-match operation (`captures`) and a boolean match test (`isMatch`).
Filesystem reads and directory walks are likewise passed in as explicit data.

Rust panics (`expect` / `unwrap`) are modelled as the `none` value of an
`Option` wrapped around a computation's result; `Result<(), ProgError>` is
modelled as `Except ProgError Unit`.
-/

namespace Regex404

/-- Number of occurrences of character `c` in a list (helper for stating
balanced-parenthesis properties). -/
def ccount (c : Char) : List Char → Nat
  | [] => 0
  | x :: rest => (if x = c then 1 else 0) + ccount c rest

/-- Model of Rust `str::find(&pat)` restricted to a starting offset `i`:
the index of the first occurrence of `pat` in `s`, counting from `i`.
`main.rs` line 153: `regexstring_copy.find(&capgroup_name)`. -/
def findSub (pat : List Char) : List Char → Nat → Option Nat
  | [], i => if pat.isPrefixOf [] then some i else none
  | c :: rest, i =>
    if pat.isPrefixOf (c :: rest) then some i else findSub pat rest (i + 1)

/-- Model of Rust `str::rfind(c)`: index of the last occurrence of character
`c`. `main.rs` line 158: `capgroupstringfind.rfind("(")`. -/
def rfindChar (c : Char) : List Char → Option Nat
  | [] => none
  | x :: rest =>
    match rfindChar c rest with
    | some j => some (j + 1)
    | none => if x = c then some 0 else none

/-- The forward balanced-parenthesis scan of `main.rs` lines 159-178: walk the
characters after the opening parenthesis (passed here as the suffix list,
with `i` the absolute index of its first character), keeping a depth counter
that `(` increments and `)` decrements; every `)` records `end = i + 1`, and
the loop stops once the depth reaches 0.  The accumulator `acc` is the
running `end : Option<usize>`; the Rust loop's final `end.unwrap()` panic on
`None` is handled by the caller (`spanOf`).  The Rust counter is an `i32`,
but on every call reachable from `spanOf` it stays ≥ 1 at loop entry (the
loop breaks as soon as it hits 0), so `Nat` arithmetic is exact here. -/
def scanEnd : List Char → Nat → Nat → Option Nat → Option Nat
  | [], _, _, acc => acc
  | c :: rest, i, depth, acc =>
    let depth1 := if c = '(' then depth + 1 else depth
    let depth2 := if c = ')' then depth1 - 1 else depth1
    let acc2 := if c = ')' then some (i + 1) else acc
    if depth2 = 0 then acc2 else scanEnd rest (i + 1) depth2 acc2

/-- The span-expansion step of `match_file` (`main.rs` lines 150-180): locate
the literal tag `<name>` in the pattern text, take the last `(` before it as
the start of the group construct, and scan forward with a depth counter for
the matching `)`.  Returns the half-open range `[start, end)`; `none` models
the `expect`/`unwrap` panics on the three failure points. -/
def spanOf (s : List Char) (name : List Char) : Option (Nat × Nat) :=
  let tag : List Char := '<' :: (name ++ ['>'])
  match findSub tag s 0 with
  | none => none
  | some tagPos =>
    match rfindChar '(' (s.take tagPos) with
    | none => none
    | some start =>
      match scanEnd (s.drop (start + 1)) (start + 1) 1 none with
      | none => none
      | some e => some (start, e)

/-- Model of Rust `str::trim_matches(c)`: remove every leading and every
trailing occurrence of the character `c`.  `main.rs` line 232:
`pattern.trim_matches('/')`. -/
def trimMatchesChar (c : Char) (s : List Char) : List Char :=
  ((s.dropWhile (· == c)).reverse.dropWhile (· == c)).reverse

/-- Model of Rust `str::trim_start_matches("./")` at the fixed argument the
program uses (`main.rs` line 257): repeatedly remove the prefix `./` while it
is present. -/
def trimStartDotSlash : List Char → List Char
  | c1 :: c2 :: rest =>
    if c1 = '.' ∧ c2 = '/' then trimStartDotSlash rest
    else c1 :: c2 :: rest
  | s => s

/-- The comparison text the scan tests a walked path against (`main.rs` lines
253-258): when the compiled selector's source does not start with `.`, the
leading `./` prefixes of the path are stripped; otherwise the path text is
used unmodified. -/
def comparisonText (selSource : List Char) (path : List Char) : List Char :=
  if ['.'].isPrefixOf selSource then path
  else trimStartDotSlash path

/-- Model of Rust `str::replace(pat, rep)`: replace each non-overlapping
occurrence of `pat`, scanning left to right (`main.rs` line 183).  A
non-empty `pat` is required by the recursion; `matchstring.replace(&val, ..)`
is only reached for a capture value `val`, and an empty pattern is returned
unchanged by the wrapper `replaceAll`. -/
def replaceAllAux (pat rep : List Char) (hp : 0 < pat.length) :
    List Char → List Char
  | [] => []
  | c :: rest =>
    if pat.isPrefixOf (c :: rest) then
      rep ++ replaceAllAux pat rep hp ((c :: rest).drop pat.length)
    else
      c :: replaceAllAux pat rep hp rest
termination_by l => l.length
decreasing_by
  · simp only [List.length_drop, List.length_cons]
    omega
  · simp

/-- `String::replace` wrapper guarding the empty-pattern case (which the
program never exercises with behavioural significance). -/
def replaceAll (s pat rep : List Char) : List Char :=
  if h : 0 < pat.length then replaceAllAux pat rep h s else s

/-- The fixed four-entry color palette of `main.rs` lines 128-133. -/
inductive Color where
  | blue
  | green
  | red
  | black
deriving DecidableEq

/-- `vec![Blue, Green, Red, Black]`. -/
def palette : List Color := [.blue, .green, .red, .black]

/-- `colors[i % colors.len()]` (`main.rs` line 141). -/
def paletteColor (i : Nat) : Color := palette.getD (i % palette.length) .blue

/-- The ANSI escape character. -/
def escChar : Char := Char.ofNat 27

/-- ANSI foreground code emitted by the `colored` crate for each palette
color. -/
def ansiCode : Color → List Char
  | .blue => escChar :: "[34m".data
  | .green => escChar :: "[32m".data
  | .red => escChar :: "[31m".data
  | .black => escChar :: "[30m".data

/-- ANSI reset sequence. -/
def ansiReset : List Char := escChar :: "[0m".data

/-- Text wrapped in color-control sequences, as the `colored` crate renders a
`ColoredString` when coloring is enabled. -/
def colorize (c : Color) (s : List Char) : List Char :=
  ansiCode c ++ s ++ ansiReset

/-- A `ColoredString` renders plainly when coloring is disabled and wrapped in
control sequences when it is enabled; the program's `coloring` flag and the
crate's global switch are read from the same environment detection. -/
def colorizeIf (coloring : Bool) (c : Color) (s : List Char) : List Char :=
  if coloring then colorize c s else s

/-- Capture group contents (`struct Cap`, `main.rs` lines 54-57). -/
structure Cap where
  name : List Char
  value : List Char
deriving DecidableEq

/-- The per-capture output line `format!("<{namecolor}>: {valcolor}")`
(`main.rs` line 146). -/
def capLine (coloring : Bool) (c : Color) (cap : Cap) : List Char :=
  '<' :: colorizeIf coloring c cap.name ++ '>' :: ':' :: ' ' :: colorizeIf coloring c cap.value

/-- What `re.captures(haystack)` exposes on success: the whole matched text
(`get_match().as_str()`) and the optional matched text of each named group
(`captures.name(name)`). -/
structure CapturesModel where
  whole : List Char
  byName : List Char → Option (List Char)

/-- A compiled regex as the program consumes it: its canonical source text
(`re.to_string()`), its declaration-ordered capture-name list
(`re.capture_names()`, where index 0 — the implicit whole-match group — and
every unnamed group appear as `none`), its first-match operation and its
boolean match test. -/
structure RegexModel where
  source : List Char
  captureNames : List (Option (List Char))
  captures : List Char → Option CapturesModel
  isMatch : List Char → Bool

/-- The capture-collection loop of `match_file` (`main.rs` lines 110-126):
walk the capture names in declaration order, skip unnamed entries, record a
`Cap` for each named group whose value participated in the match, and drop
(with a warning) every named group whose value is absent. -/
def buildCaps (names : List (Option (List Char))) (cpt : CapturesModel) : List Cap :=
  match names with
  | [] => []
  | none :: rest => buildCaps rest cpt
  | some n :: rest =>
    match cpt.byName n with
    | some v => ⟨n, v⟩ :: buildCaps rest cpt
    | none => buildCaps rest cpt

/-- The mutable rendering state of `match_file` (`main.rs` lines 135-138):
the running pattern text being annotated, the text to print for it, the
running match text, and the per-capture output lines. -/
structure RenderState where
  regexstring : List Char
  regexstringprint : List Char
  matchstring : List Char
  matchesAcc : List (List Char)
deriving DecidableEq

/-- Initial rendering state (`main.rs` lines 135-138). -/
def initState (source whole : List Char) : RenderState :=
  { regexstring := source, regexstringprint := source,
    matchstring := whole, matchesAcc := [] }

/-- One iteration of the rendering loop (`main.rs` lines 140-186) for the
capture at position `i`: pick `colors[i % 4]`, build the `<name>: value`
line, and — only when coloring is enabled — expand the capture's span in the
running pattern text, splice in the color there, and substitute the colored
value into the running match text.  `none` models the span step's panics. -/
def renderStep (coloring : Bool) (i : Nat) (cap : Cap) (st : RenderState) :
    Option RenderState :=
  let color := paletteColor i
  let found := capLine coloring color cap
  if coloring then
    match spanOf st.regexstring cap.name with
    | none => none
    | some (s, e) =>
      let pre := st.regexstring.take s
      let capg := (st.regexstring.drop s).take (e - s)
      let post := st.regexstring.drop e
      let newtext := pre ++ colorize color capg ++ post
      some { regexstring := newtext, regexstringprint := newtext,
             matchstring := replaceAll st.matchstring cap.value (colorize color cap.value),
             matchesAcc := st.matchesAcc ++ [found] }
  else
    some { st with matchesAcc := st.matchesAcc ++ [found] }

/-- The full rendering loop `for (i, cap) in caps.into_iter().enumerate()`
(`main.rs` lines 140-186), starting at position `i`. -/
def renderLoop (coloring : Bool) : List Cap → Nat → RenderState → Option RenderState
  | [], _, st => some st
  | cap :: rest, i, st =>
    match renderStep coloring i cap st with
    | none => none
    | some st' => renderLoop coloring rest (i + 1) st'

/-- The error type of the program (`enum ProgError`). -/
inductive ProgError where
  | ioErr (msg : List Char)
  | parseFailure (msg : List Char)
  | noMatch
deriving DecidableEq

/-- What a successful `match_file` run produces at its output boundary:
either the "no capture groups" notice (`main.rs` lines 86-89), or the three
printed blocks — annotated pattern text, annotated match text, and the
per-capture lines (`main.rs` lines 188-193). -/
inductive MatchOutcome where
  | noCapGroups
  | output (patternText matchText : List Char) (capLines : List (List Char))
deriving DecidableEq

/-- `match_file` after the file has been read (`main.rs` lines 79-195):
detect coloring (passed in as `coloring`), short-circuit when the pattern has
at most one total capture group, attempt the first match (`NoMatch` on
failure), collect the named captures, and run the rendering loop.  The outer
`Option` models the rendering loop's panics. -/
def matchFileCore (re : RegexModel) (haystack : List Char) (coloring : Bool) :
    Option (Except ProgError MatchOutcome) :=
  if re.captureNames.length ≤ 1 then some (.ok .noCapGroups)
  else
    match re.captures haystack with
    | none => some (.error .noMatch)
    | some cpt =>
      match renderLoop coloring (buildCaps re.captureNames cpt) 0
          (initState re.source cpt.whole) with
      | none => none
      | some st => some (.ok (.output st.regexstringprint st.matchstring st.matchesAcc))

/-- `match_file` including the initial `fs::read_to_string` (`main.rs` lines
76-77); the filesystem is passed in as a function from paths to file text or
a read-error message. -/
def matchFileM (readFile : List Char → Except (List Char) (List Char))
    (path : List Char) (re : RegexModel) (coloring : Bool) :
    Option (Except ProgError MatchOutcome) :=
  match readFile path with
  | .error e =>
    some (.error (.ioErr ("failed to read file ".data ++ path ++ ": ".data ++ e)))
  | .ok h => matchFileCore re h coloring

/-- One custom matcher of the configuration document (`struct CustomMatcher`,
`main.rs` lines 198-206). -/
structure CustomMatcher where
  type_ : List Char
  file_patterns : List (List Char)
  regexes : List (List Char)

/-- The inner loop of `renovate` over a matcher's match patterns (`main.rs`
lines 268-283): each pattern is compiled — a compile failure returns a
`ParseFailure` for the whole scan — and run through `match_file` on the
current path, whose `Ok` and `Err` results are both ignored (the `Err` side
is only logged). -/
def runMatchPatterns (compile : List Char → Except (List Char) RegexModel)
    (readFile : List Char → Except (List Char) (List Char))
    (coloring : Bool) (path : List Char) :
    List (List Char) → Option (Except ProgError Unit)
  | [] => some (.ok ())
  | rx :: rest =>
    match compile rx with
    | .error e =>
      some (.error (.parseFailure ("Failed to parse regex: ".data ++ e)))
    | .ok re =>
      match matchFileM readFile path re coloring with
      | none => none
      | some _ => runMatchPatterns compile readFile coloring path rest

/-- The walk loop of `renovate` (`main.rs` lines 246-284): erroneous directory
entries are skipped, every surviving path is tested against the compiled
file-selector via its comparison text, and each selected path is run through
all match patterns.  `match_file` receives the original path
(`entry.path()`), not the comparison text. -/
def walkPaths (compile : List Char → Except (List Char) RegexModel)
    (readFile : List Char → Except (List Char) (List Char))
    (coloring : Bool) (fileRe : RegexModel) (mps : List (List Char)) :
    List (Except Unit (List Char)) → Option (Except ProgError Unit)
  | [] => some (.ok ())
  | .error _ :: rest => walkPaths compile readFile coloring fileRe mps rest
  | .ok path :: rest =>
    if fileRe.isMatch (comparisonText fileRe.source path) then
      match runMatchPatterns compile readFile coloring path mps with
      | none => none
      | some (.error e) => some (.error e)
      | some (.ok ()) => walkPaths compile readFile coloring fileRe mps rest
    else walkPaths compile readFile coloring fileRe mps rest

/-- The loop of `renovate` over a matcher's file-selector patterns (`main.rs`
lines 229-285): trim slashes, compile the selector — a compile failure
returns a `ParseFailure` for the whole scan — then walk the tree. -/
def runFilePatterns (compile : List Char → Except (List Char) RegexModel)
    (readFile : List Char → Except (List Char) (List Char))
    (coloring : Bool) (walk : List (Except Unit (List Char)))
    (mps : List (List Char)) :
    List (List Char) → Option (Except ProgError Unit)
  | [] => some (.ok ())
  | fp :: rest =>
    match compile (trimMatchesChar '/' fp) with
    | .error e =>
      some (.error (.parseFailure ("Failed to parse file pattern regex: ".data ++ e)))
    | .ok fre =>
      match walkPaths compile readFile coloring fre mps walk with
      | none => none
      | some (.error e) => some (.error e)
      | some (.ok ()) => runFilePatterns compile readFile coloring walk mps rest

/-- The matcher loop of `renovate` (`main.rs` lines 224-287): matchers whose
type tag is not (case-insensitively) `regex` are skipped. -/
def renovateScan (compile : List Char → Except (List Char) RegexModel)
    (walk : List (Except Unit (List Char)))
    (readFile : List Char → Except (List Char) (List Char))
    (coloring : Bool) :
    List CustomMatcher → Option (Except ProgError Unit)
  | [] => some (.ok ())
  | m :: rest =>
    if m.type_.map Char.toLower = "regex".data then
      match runFilePatterns compile readFile coloring walk m.regexes m.file_patterns with
      | none => none
      | some (.error e) => some (.error e)
      | some (.ok ()) => renovateScan compile walk readFile coloring rest
    else renovateScan compile walk readFile coloring rest

/-- `renovate` after the config file has been read (`main.rs` lines 219-288):
deserialize the config — a failure returns a `ParseFailure` carrying the
parser's message — then run the scan. -/
def renovateTop (parseConfig : List Char → Except (List Char) (List CustomMatcher))
    (configText : List Char)
    (compile : List Char → Except (List Char) RegexModel)
    (walk : List (Except Unit (List Char)))
    (readFile : List Char → Except (List Char) (List Char))
    (coloring : Bool) : Option (Except ProgError Unit) :=
  match parseConfig configText with
  | .error e => some (.error (.parseFailure e))
  | .ok ms => renovateScan compile walk readFile coloring ms

/-! ### Specification-side definitions and concrete instances

The definitions below restate, in the spec's declarative vocabulary, what the
embedded code is claimed to do, and provide concrete instances used to
exercise the theorems. -/

/-- The path with a single leading `./` removed when present — the spec's
description of the comparison text computed for a walked path. -/
def stripOneDotSlash : List Char → List Char
  | c1 :: c2 :: rest =>
    if c1 = '.' ∧ c2 = '/' then rest
    else c1 :: c2 :: rest
  | s => s

/-- The plain `<name>: value` capture line printed when coloring is off. -/
def plainLine (cap : Cap) : List Char :=
  '<' :: cap.name ++ '>' :: ':' :: ' ' :: cap.value

/-- The capture lines the rendering loop emits, starting from position `k`. -/
def capLinesFrom (coloring : Bool) (k : Nat) : List Cap → List (List Char)
  | [] => []
  | cap :: rest => capLine coloring (paletteColor k) cap :: capLinesFrom coloring (k + 1) rest

/-- The nested-group example pattern of the specification. -/
def patEx : List Char := "(?<outer>a(?<inner>b)c)".data

/-- Semantic model of the external engine's `is_match` for the concrete
selector pattern `^src\/`: the anchored pattern matches a text exactly when
the text starts with `src/`. -/
def caretSrcRegex : RegexModel :=
  { source := "^src\\/".data, captureNames := [none],
    captures := fun _ => none,
    isMatch := fun t => "src/".data.isPrefixOf t }

/-- Whether the scan keeps a walked path for a compiled file-selector
(`main.rs` lines 253-265): the selector is tested against the path's
comparison text. -/
def selects (re : RegexModel) (path : List Char) : Bool :=
  re.isMatch (comparisonText re.source path)

/-- A two-group regex instance whose only named group participates. -/
def c4re : RegexModel :=
  { source := "ab".data, captureNames := [none],
    captures := fun _ => some ⟨"ab".data, fun _ => none⟩,
    isMatch := fun _ => true }

/-- Capture-name list instance: group 0, then named groups `a` and `b`. -/
def c5names : List (Option (List Char)) := [none, some "a".data, some "b".data]

/-- Match instance in which only group `a` participated. -/
def c5cpt : CapturesModel :=
  ⟨"m".data, fun n => if n = "a".data then some "1".data else none⟩

/-- Five captures, to exercise the color palette past one full cycle. -/
def c8caps : List Cap :=
  [⟨"a".data, "1".data⟩, ⟨"b".data, "2".data⟩, ⟨"c".data, "3".data⟩,
   ⟨"d".data, "4".data⟩, ⟨"e".data, "5".data⟩]

/-- Initial rendering state for the palette example. -/
def c8st : RenderState := initState "p".data "m".data

/-- Final rendering state for the palette example with coloring off. -/
def c8st' : RenderState :=
  { regexstring := "p".data, regexstringprint := "p".data, matchstring := "m".data,
    matchesAcc := ["<a>: 1".data, "<b>: 2".data, "<c>: 3".data,
                   "<d>: 4".data, "<e>: 5".data] }

/-- Match instance for the coloring-off example. -/
def c9cpt : CapturesModel :=
  ⟨"zz".data, fun n => if n = "g".data then some "z".data else none⟩

/-- A regex instance whose source text contains no `<...>` tag at all, so the
span-expansion step would panic if it were ever consulted. -/
def c9re : RegexModel :=
  { source := "abc".data, captureNames := [none, some "g".data],
    captures := fun _ => some c9cpt,
    isMatch := fun _ => false }

/-- A two-group regex instance with only unnamed groups and no match. -/
def c10re1 : RegexModel :=
  { source := "(a)".data, captureNames := [none, none],
    captures := fun _ => none, isMatch := fun _ => false }

/-- Match instance for the unnamed-group example. -/
def c10cpt : CapturesModel := ⟨"ab".data, fun _ => none⟩

/-- A two-group regex instance with only unnamed groups and a match. -/
def c10re2 : RegexModel :=
  { source := "(a)".data, captureNames := [none, none],
    captures := fun _ => some c10cpt, isMatch := fun _ => false }

/-- A compiled-regex instance that matches every text. -/
def dummyRe : RegexModel :=
  { source := "x".data, captureNames := [none], captures := fun _ => none,
    isMatch := fun _ => true }

/-- A compiler that accepts every pattern. -/
def c6compileOk : List Char → Except (List Char) RegexModel := fun _ => .ok dummyRe

/-- A compiler that rejects every pattern. -/
def c6compileBad : List Char → Except (List Char) RegexModel := fun _ => .error "bad".data

/-- A compiler that accepts only the trimmed selector `x`. -/
def c6compileSel : List Char → Except (List Char) RegexModel := fun p =>
  if p = "x".data then .ok dummyRe else .error "bad".data

/-- A directory walk with one readable entry and one erroneous entry. -/
def c6walk : List (Except Unit (List Char)) := [.ok "a.txt".data, .error ()]

/-- A filesystem on which every read fails. -/
def c6read : List Char → Except (List Char) (List Char) := fun _ => .error "denied".data

/-- A configuration with a single regex-kind matcher. -/
def c6matchers : List CustomMatcher :=
  [{ type_ := "Regex".data, file_patterns := ["/x/".data], regexes := ["y".data] }]

/-- A config parser that rejects every document. -/
def c7parse : List Char → Except (List Char) (List CustomMatcher) :=
  fun _ => .error "expected value at line 1".data

/-! ### Theorems -/

theorem dropWhile_replicate_append (c : Char) (n : Nat) (l : List Char) :
    (List.replicate n c ++ l).dropWhile (· == c) = l.dropWhile (· == c) := by
  induction n with
  | zero => simp
  | succ k ih => simp [List.replicate_succ, List.dropWhile_cons, ih]

theorem dropWhile_replicate (c : Char) (n : Nat) :
    (List.replicate n c).dropWhile (· == c) = [] := by
  rw [← List.append_nil (List.replicate n c), dropWhile_replicate_append]
  rfl

theorem dropWhile_head_ne (c : Char) (l : List Char) (h : l.head? ≠ some c) :
    l.dropWhile (· == c) = l := by
  cases l with
  | nil => rfl
  | cons x t =>
    have hx : ¬ (x = c) := by
      intro hxc
      exact h (by simp [hxc])
    simp [List.dropWhile_cons, hx]

/-- C2 (amended): the trimming step the scan orchestrator applies to a
file-selector pattern before compiling it (`pattern.trim_matches('/')`,
`main.rs` line 232) removes every leading `/` and every trailing `/`
character — not exactly one of each — and changes nothing else; in
particular `//foo//` trims to `foo`. -/
theorem renovate_trim_slashes (a b : Nat) (t : List Char)
    (h1 : t.head? ≠ some '/') (h2 : t.getLast? ≠ some '/') :
    trimMatchesChar '/' (List.replicate a '/' ++ t ++ List.replicate b '/') = t := by
  unfold trimMatchesChar
  rw [List.append_assoc, dropWhile_replicate_append]
  cases t with
  | nil =>
    rw [List.nil_append, dropWhile_replicate]
    rfl
  | cons x t' =>
    have hhead : ((x :: t') ++ List.replicate b '/').head? ≠ some '/' := by
      simpa using h1
    rw [dropWhile_head_ne '/' _ hhead, List.reverse_append, List.reverse_replicate,
      dropWhile_replicate_append, dropWhile_head_ne '/' _ (by rw [List.head?_reverse]; exact h2),
      List.reverse_reverse]

/-- C2 counterexample: the trimming step applied to `//foo//` yields `foo`,
not `/foo/` as the claim states. -/
theorem renovate_trim_slashes_counterexample :
    trimMatchesChar '/' "//foo//".data = "foo".data ∧ "foo".data ≠ "/foo/".data := by
  decide

/-- C2 witness: the amended statement instantiated at `//foo//`. -/
theorem renovate_trim_slashes_witness :
    trimMatchesChar '/' "//foo//".data = "foo".data ∧
    List.replicate 2 '/' ++ "foo".data ++ List.replicate 2 '/' = "//foo//".data := by
  constructor
  · have h := renovate_trim_slashes 2 2 "foo".data (by decide) (by decide)
    rw [show "//foo//".data =
      List.replicate 2 '/' ++ "foo".data ++ List.replicate 2 '/' by decide]
    exact h
  · decide

/-- C4: for every readable file and every pattern with at most one total
capture group (the implicit whole-match group included), `match_file`
performs no match attempt — the result is the same for every `captures`
operation and every haystack — and returns success with the
`no capture groups` notice. -/
theorem match_file_no_cap_groups
    (readFile : List Char → Except (List Char) (List Char))
    (path content : List Char) (re : RegexModel) (coloring : Bool)
    (hread : readFile path = Except.ok content)
    (hlen : re.captureNames.length ≤ 1) :
    matchFileM readFile path re coloring = some (.ok .noCapGroups) := by
  unfold matchFileM
  rw [hread]
  simp [matchFileCore, hlen]

/-- C4 witness: a one-group pattern on a readable file short-circuits with
the notice. -/
theorem match_file_no_cap_groups_witness :
    matchFileM (fun _ => Except.ok "abc".data) "f.txt".data c4re false =
      some (.ok .noCapGroups) :=
  match_file_no_cap_groups (fun _ => Except.ok "abc".data) "f.txt".data "abc".data
    c4re false rfl (by decide)

/-- C7: when the config document fails to deserialize, `renovate` returns a
single `ParseFailure` carrying the parser's message, and the result is the
same for every directory walk and every filesystem — no scan activity
occurs. -/
theorem renovate_parse_failure
    (parseConfig : List Char → Except (List Char) (List CustomMatcher))
    (configText e : List Char)
    (compile : List Char → Except (List Char) RegexModel)
    (walk : List (Except Unit (List Char)))
    (readFile : List Char → Except (List Char) (List Char))
    (coloring : Bool)
    (hp : parseConfig configText = Except.error e) :
    renovateTop parseConfig configText compile walk readFile coloring =
      some (.error (.parseFailure e)) := by
  unfold renovateTop
  rw [hp]

/-- C7 witness: a failing parser yields the `ParseFailure` for any walk and
filesystem. -/
theorem renovate_parse_failure_witness :
    renovateTop c7parse "not a json document".data c6compileOk c6walk c6read false =
      some (.error (.parseFailure "expected value at line 1".data)) :=
  renovate_parse_failure c7parse "not a json document".data "expected value at line 1".data
    c6compileOk c6walk c6read false rfl

theorem build_caps_sublist (names : List (Option (List Char))) (cpt : CapturesModel) :
    ((buildCaps names cpt).map (fun c => some c.name)).Sublist names := by
  induction names with
  | nil => simp [buildCaps]
  | cons o rest ih =>
    cases o with
    | none =>
      show ((buildCaps rest cpt).map (fun c => some c.name)).Sublist (none :: rest)
      exact ih.cons _
    | some n =>
      cases hbn : cpt.byName n with
      | none =>
        show ((match cpt.byName n with
          | some v => (⟨n, v⟩ : Cap) :: buildCaps rest cpt
          | none => buildCaps rest cpt).map (fun c : Cap => some c.name)).Sublist (some n :: rest)
        rw [hbn]
        exact ih.cons _
      | some v =>
        show ((match cpt.byName n with
          | some v => (⟨n, v⟩ : Cap) :: buildCaps rest cpt
          | none => buildCaps rest cpt).map (fun c : Cap => some c.name)).Sublist (some n :: rest)
        rw [hbn]
        exact ih.cons₂ _

theorem build_caps_values (names : List (Option (List Char))) (cpt : CapturesModel) :
    ∀ c ∈ buildCaps names cpt, cpt.byName c.name = some c.value := by
  induction names with
  | nil => simp [buildCaps]
  | cons o rest ih =>
    cases o with
    | none => exact ih
    | some n =>
      cases hbn : cpt.byName n with
      | none =>
        intro c hc
        apply ih
        have hred : buildCaps (some n :: rest) cpt = buildCaps rest cpt := by
          show (match cpt.byName n with
            | some v => (⟨n, v⟩ : Cap) :: buildCaps rest cpt
            | none => buildCaps rest cpt) = buildCaps rest cpt
          rw [hbn]
        rwa [hred] at hc
      | some v =>
        intro c hc
        have hred : buildCaps (some n :: rest) cpt = ⟨n, v⟩ :: buildCaps rest cpt := by
          show (match cpt.byName n with
            | some v => (⟨n, v⟩ : Cap) :: buildCaps rest cpt
            | none => buildCaps rest cpt) = ⟨n, v⟩ :: buildCaps rest cpt
          rw [hbn]
        rw [hred] at hc
        rcases List.mem_cons.mp hc with hc | hc
        · subst hc
          exact hbn
        · exact ih c hc

/-- C5: the capture list `match_file` builds from a successful match mentions
only named groups of the pattern, in declaration order (its name sequence is
a sublist of the pattern's capture-name list), records for each capture the
value with which the group participated in the match, and excludes every
named group that did not participate. -/
theorem match_file_captures_spec (names : List (Option (List Char))) (cpt : CapturesModel) :
    ((buildCaps names cpt).map (fun c => some c.name)).Sublist names ∧
    (∀ c ∈ buildCaps names cpt, cpt.byName c.name = some c.value) ∧
    (∀ c ∈ buildCaps names cpt, cpt.byName c.name ≠ none) :=
  ⟨build_caps_sublist names cpt, build_caps_values names cpt,
   fun c hc => by rw [build_caps_values names cpt c hc]; simp⟩

/-- C5 witness: the declaration-order and participation facts at a concrete
pattern and match. -/
theorem match_file_captures_spec_witness :
    ((buildCaps c5names c5cpt).map (fun c => some c.name)).Sublist c5names ∧
    c5cpt.byName (Cap.name ⟨"a".data, "1".data⟩) = some "1".data := by
  constructor
  · exact (match_file_captures_spec c5names c5cpt).1
  · exact (match_file_captures_spec c5names c5cpt).2.1 ⟨"a".data, "1".data⟩ (by decide)

theorem matchFileCore_eq_some (re : RegexModel) (haystack : List Char) (coloring : Bool)
    (cpt : CapturesModel) (hlen : ¬ re.captureNames.length ≤ 1)
    (hm : re.captures haystack = some cpt) :
    matchFileCore re haystack coloring =
      match renderLoop coloring (buildCaps re.captureNames cpt) 0
          (initState re.source cpt.whole) with
      | none => none
      | some st => some (.ok (.output st.regexstringprint st.matchstring st.matchesAcc)) := by
  unfold matchFileCore
  rw [if_neg hlen, hm]

theorem build_caps_all_none (names : List (Option (List Char))) (cpt : CapturesModel)
    (h : ∀ x ∈ names, x = none) : buildCaps names cpt = [] := by
  induction names with
  | nil => rfl
  | cons o rest ih =>
    have ho : o = none := h o (List.mem_cons_self _ _)
    subst ho
    exact ih (fun x hx => h x (List.mem_cons_of_mem _ hx))

/-- C10: a pattern whose groups are all unnamed (with at least one unnamed
group beyond the implicit whole-match group) does not take the
`no capture groups` short-circuit: a failed match returns the `NoMatch`
error, and a successful match prints the pattern block and the match block
with zero per-capture lines. -/
theorem match_file_unnamed_groups (re : RegexModel) (haystack : List Char) (coloring : Bool)
    (hall : ∀ x ∈ re.captureNames, x = none)
    (hlen : 2 ≤ re.captureNames.length) :
    (re.captures haystack = none →
      matchFileCore re haystack coloring = some (.error .noMatch)) ∧
    (∀ cpt, re.captures haystack = some cpt →
      matchFileCore re haystack coloring =
        some (.ok (.output re.source cpt.whole []))) := by
  have hnot : ¬ re.captureNames.length ≤ 1 := by omega
  constructor
  · intro hm
    unfold matchFileCore
    rw [if_neg hnot, hm]
  · intro cpt hm
    rw [matchFileCore_eq_some re haystack coloring cpt hnot hm,
      build_caps_all_none re.captureNames cpt hall]
    rfl

/-- C10 witness: a two-group all-unnamed pattern, once without and once with
a match. -/
theorem match_file_unnamed_groups_witness :
    matchFileCore c10re1 "xyz".data false = some (.error .noMatch) ∧
    matchFileCore c10re2 "xab".data true =
      some (.ok (.output "(a)".data "ab".data [])) := by
  constructor
  · exact (match_file_unnamed_groups c10re1 "xyz".data false (by decide) (by decide)).1 rfl
  · exact (match_file_unnamed_groups c10re2 "xab".data true (by decide) (by decide)).2 c10cpt rfl

theorem renderLoop_plain (caps : List Cap) (k : Nat) (st : RenderState) :
    renderLoop false caps k st =
      some { st with matchesAcc := st.matchesAcc ++ caps.map plainLine } := by
  induction caps generalizing k st with
  | nil => simp [renderLoop]
  | cons cap rest ih =>
    have hstep : renderStep false k cap st =
        some { st with matchesAcc := st.matchesAcc ++ [plainLine cap] } := by
      show some _ = _
      have : capLine false (paletteColor k) cap = plainLine cap := rfl
      rw [this]
    rw [renderLoop]
    simp only [hstep]
    rw [ih]
    simp

/-- C9: with coloring disabled, `match_file` prints the unmodified pattern
source, the unmodified match text, and one plain `<name>: value` line per
capture in capture order; the span-expansion step is never consulted — the
theorem holds for every regex instance, including `c9re` below whose source
would make that step panic. -/
theorem match_file_no_coloring (re : RegexModel) (haystack : List Char) (cpt : CapturesModel)
    (hm : re.captures haystack = some cpt)
    (hlen : 1 < re.captureNames.length) :
    matchFileCore re haystack false =
      some (.ok (.output re.source cpt.whole
        ((buildCaps re.captureNames cpt).map plainLine))) := by
  have hnot : ¬ re.captureNames.length ≤ 1 := by omega
  rw [matchFileCore_eq_some re haystack false cpt hnot hm, renderLoop_plain]
  rfl

/-- C9 witness: a pattern source containing no group tag at all still renders
plainly when coloring is off. -/
theorem match_file_no_coloring_witness :
    matchFileCore c9re "muzz".data false =
      some (.ok (.output c9re.source c9cpt.whole
        ((buildCaps c9re.captureNames c9cpt).map plainLine))) ∧
    (buildCaps c9re.captureNames c9cpt).map plainLine = ["<g>: z".data] := by
  constructor
  · exact match_file_no_coloring c9re "muzz".data c9cpt rfl (by decide)
  · decide

theorem renderStep_matchesAcc (coloring : Bool) (k : Nat) (cap : Cap)
    (st st1 : RenderState) (hs : renderStep coloring k cap st = some st1) :
    st1.matchesAcc = st.matchesAcc ++ [capLine coloring (paletteColor k) cap] := by
  unfold renderStep at hs
  cases coloring with
  | false =>
    simp only [if_neg Bool.false_ne_true] at hs
    cases hs
    rfl
  | true =>
    simp only [if_pos rfl] at hs
    cases hsp : spanOf st.regexstring cap.name with
    | none => rw [hsp] at hs; cases hs
    | some se =>
      rw [hsp] at hs
      cases se with
      | mk s e =>
        cases hs
        rfl

theorem renderLoop_matchesAcc (coloring : Bool) (caps : List Cap) (k : Nat)
    (st st' : RenderState) (h : renderLoop coloring caps k st = some st') :
    st'.matchesAcc = st.matchesAcc ++ capLinesFrom coloring k caps := by
  induction caps generalizing k st with
  | nil =>
    rw [renderLoop] at h
    cases h
    simp [capLinesFrom]
  | cons cap rest ih =>
    rw [renderLoop] at h
    cases hs : renderStep coloring k cap st with
    | none => rw [hs] at h; cases h
    | some st1 =>
      rw [hs] at h
      have h1 := ih (k + 1) st1 h
      rw [h1, renderStep_matchesAcc coloring k cap st st1 hs, capLinesFrom]
      simp

theorem capLinesFrom_get (coloring : Bool) (caps : List Cap) (k i : Nat) :
    (capLinesFrom coloring k caps).get? i =
      (caps.get? i).map (capLine coloring (paletteColor (k + i))) := by
  induction caps generalizing k i with
  | nil => simp [capLinesFrom]
  | cons cap rest ih =>
    cases i with
    | zero => simp [capLinesFrom]
    | succ j =>
      have h := ih (k + 1) j
      rw [capLinesFrom, List.get?_cons_succ, List.get?_cons_succ, h,
        show k + 1 + j = k + (j + 1) by omega]

/-- C8: the per-capture line the rendering loop emits at position `i` is
colored with `colors[i % 4]` from the fixed four-entry palette, so positions
`i` and `i + 4` always receive the same color. -/
theorem render_color_cycle (coloring : Bool) (caps : List Cap)
    (st st' : RenderState) (i : Nat)
    (h : renderLoop coloring caps 0 st = some st') (hst : st.matchesAcc = []) :
    st'.matchesAcc.get? i = (caps.get? i).map (capLine coloring (paletteColor i)) ∧
    paletteColor (i + 4) = paletteColor i := by
  constructor
  · rw [renderLoop_matchesAcc coloring caps 0 st st' h, hst, List.nil_append,
      capLinesFrom_get]
    simp
  · show palette.getD ((i + 4) % palette.length) .blue =
      palette.getD (i % palette.length) .blue
    rw [show palette.length = 4 from rfl, Nat.add_mod_right]

/-- C8 witness: five captures rendered from position 0; the line at position
4 wears the same palette color as the line at position 0. -/
theorem render_color_cycle_witness :
    c8st'.matchesAcc.get? 4 =
      (c8caps.get? 4).map (capLine false (paletteColor 4)) ∧
    paletteColor 4 = paletteColor 0 := by
  have h4 := render_color_cycle false c8caps c8st c8st' 4 (by decide) (by decide)
  have h0 := render_color_cycle false c8caps c8st c8st' 0 (by decide) (by decide)
  refine ⟨h4.1, ?_⟩
  have := h0.2
  simpa using this

theorem trimStartDotSlash_stop (s : List Char)
    (h : ['.', '/'].isPrefixOf s = false) : trimStartDotSlash s = s := by
  rcases s with _ | ⟨c1, _ | ⟨c2, rest⟩⟩
  · rfl
  · rfl
  · have hnd : ¬ (c1 = '.' ∧ c2 = '/') := by
      rintro ⟨rfl, rfl⟩
      simp [List.isPrefixOf] at h
    rw [trimStartDotSlash, if_neg hnd]

/-- C3: the comparison text the scan tests a walked path against is the path
with one leading `./` stripped when the compiled selector's source does not
start with `.`, and the unmodified path when it does.  The hypothesis
records that the walked path carries at most one leading `./` (paths
produced by walking `.` are `.` or `./<entry>/...` and never start with
`././`), which is what makes the repeated stripping of
`trim_start_matches("./")` agree with a single strip. -/
theorem comparison_text_spec (sel path : List Char)
    (hnd : ['.', '/'].isPrefixOf (stripOneDotSlash path) = false) :
    (['.'].isPrefixOf sel = false →
      comparisonText sel path = stripOneDotSlash path) ∧
    (['.'].isPrefixOf sel = true → comparisonText sel path = path) := by
  constructor
  · intro hs
    unfold comparisonText
    rw [if_neg (by simp [hs])]
    rcases path with _ | ⟨c1, _ | ⟨c2, rest⟩⟩
    · rfl
    · rfl
    · by_cases hd : c1 = '.' ∧ c2 = '/'
      · have hstrip : stripOneDotSlash (c1 :: c2 :: rest) = rest := by
          rw [stripOneDotSlash, if_pos hd]
        rw [hstrip] at hnd ⊢
        rw [trimStartDotSlash, if_pos hd]
        exact trimStartDotSlash_stop rest hnd
      · rw [trimStartDotSlash, if_neg hd, stripOneDotSlash, if_neg hd]
  · intro hs
    unfold comparisonText
    rw [if_pos hs]

/-- C3 witness: the selector `^src\/` over the walked paths
`./src/main.txt` and `./docs/readme.txt` selects only the former. -/
theorem comparison_text_spec_witness :
    comparisonText "^src\\/".data "./src/main.txt".data = "src/main.txt".data ∧
    comparisonText "^src\\/".data "./docs/readme.txt".data = "docs/readme.txt".data ∧
    selects caretSrcRegex "./src/main.txt".data = true ∧
    selects caretSrcRegex "./docs/readme.txt".data = false := by
  refine ⟨?_, ?_, by decide, by decide⟩
  · have h := (comparison_text_spec "^src\\/".data "./src/main.txt".data (by decide)).1
      (by decide)
    rw [h]
    decide
  · have h := (comparison_text_spec "^src\\/".data "./docs/readme.txt".data (by decide)).1
      (by decide)
    rw [h]
    decide

theorem runMatchPatterns_cons_ok
    (compile : List Char → Except (List Char) RegexModel)
    (readFile : List Char → Except (List Char) (List Char))
    (coloring : Bool) (path rx : List Char) (rest : List (List Char))
    (re : RegexModel) (hre : compile rx = Except.ok re) :
    runMatchPatterns compile readFile coloring path (rx :: rest) =
      match matchFileM readFile path re coloring with
      | none => none
      | some _ => runMatchPatterns compile readFile coloring path rest := by
  have h0 : runMatchPatterns compile readFile coloring path (rx :: rest) =
      match compile rx with
      | .error e =>
        some (.error (.parseFailure ("Failed to parse regex: ".data ++ e)))
      | .ok re =>
        match matchFileM readFile path re coloring with
        | none => none
        | some _ => runMatchPatterns compile readFile coloring path rest := rfl
  rw [h0, hre]

theorem runMatchPatterns_cons_err
    (compile : List Char → Except (List Char) RegexModel)
    (readFile : List Char → Except (List Char) (List Char))
    (coloring : Bool) (path rx : List Char) (rest : List (List Char))
    (e : List Char) (hre : compile rx = Except.error e) :
    runMatchPatterns compile readFile coloring path (rx :: rest) =
      some (.error (.parseFailure ("Failed to parse regex: ".data ++ e))) := by
  have h0 : runMatchPatterns compile readFile coloring path (rx :: rest) =
      match compile rx with
      | .error e =>
        some (.error (.parseFailure ("Failed to parse regex: ".data ++ e)))
      | .ok re =>
        match matchFileM readFile path re coloring with
        | none => none
        | some _ => runMatchPatterns compile readFile coloring path rest := rfl
  rw [h0, hre]

theorem walkPaths_cons_ok
    (compile : List Char → Except (List Char) RegexModel)
    (readFile : List Char → Except (List Char) (List Char))
    (coloring : Bool) (fileRe : RegexModel) (mps : List (List Char))
    (path : List Char) (rest : List (Except Unit (List Char))) :
    walkPaths compile readFile coloring fileRe mps (.ok path :: rest) =
      if fileRe.isMatch (comparisonText fileRe.source path) = true then
        match runMatchPatterns compile readFile coloring path mps with
        | none => none
        | some (.error e) => some (.error e)
        | some (.ok ()) => walkPaths compile readFile coloring fileRe mps rest
      else walkPaths compile readFile coloring fileRe mps rest := rfl

theorem runFilePatterns_cons_ok
    (compile : List Char → Except (List Char) RegexModel)
    (readFile : List Char → Except (List Char) (List Char))
    (coloring : Bool) (walk : List (Except Unit (List Char)))
    (mps : List (List Char)) (fp : List Char) (rest : List (List Char))
    (fre : RegexModel) (hfre : compile (trimMatchesChar '/' fp) = Except.ok fre) :
    runFilePatterns compile readFile coloring walk mps (fp :: rest) =
      match walkPaths compile readFile coloring fre mps walk with
      | none => none
      | some (.error e) => some (.error e)
      | some (.ok ()) => runFilePatterns compile readFile coloring walk mps rest := by
  have h0 : runFilePatterns compile readFile coloring walk mps (fp :: rest) =
      match compile (trimMatchesChar '/' fp) with
      | .error e =>
        some (.error (.parseFailure ("Failed to parse file pattern regex: ".data ++ e)))
      | .ok fre =>
        match walkPaths compile readFile coloring fre mps walk with
        | none => none
        | some (.error e) => some (.error e)
        | some (.ok ()) => runFilePatterns compile readFile coloring walk mps rest := rfl
  rw [h0, hfre]

theorem runFilePatterns_cons_err
    (compile : List Char → Except (List Char) RegexModel)
    (readFile : List Char → Except (List Char) (List Char))
    (coloring : Bool) (walk : List (Except Unit (List Char)))
    (mps : List (List Char)) (fp : List Char) (rest : List (List Char))
    (e : List Char) (hfre : compile (trimMatchesChar '/' fp) = Except.error e) :
    runFilePatterns compile readFile coloring walk mps (fp :: rest) =
      some (.error (.parseFailure ("Failed to parse file pattern regex: ".data ++ e))) := by
  have h0 : runFilePatterns compile readFile coloring walk mps (fp :: rest) =
      match compile (trimMatchesChar '/' fp) with
      | .error e =>
        some (.error (.parseFailure ("Failed to parse file pattern regex: ".data ++ e)))
      | .ok fre =>
        match walkPaths compile readFile coloring fre mps walk with
        | none => none
        | some (.error e) => some (.error e)
        | some (.ok ()) => runFilePatterns compile readFile coloring walk mps rest := rfl
  rw [h0, hfre]

theorem renovateScan_cons
    (compile : List Char → Except (List Char) RegexModel)
    (walk : List (Except Unit (List Char)))
    (readFile : List Char → Except (List Char) (List Char))
    (coloring : Bool) (m : CustomMatcher) (rest : List CustomMatcher) :
    renovateScan compile walk readFile coloring (m :: rest) =
      if m.type_.map Char.toLower = "regex".data then
        match runFilePatterns compile readFile coloring walk m.regexes m.file_patterns with
        | none => none
        | some (.error e) => some (.error e)
        | some (.ok ()) => renovateScan compile walk readFile coloring rest
      else renovateScan compile walk readFile coloring rest := rfl

theorem runMatchPatterns_ok
    (compile : List Char → Except (List Char) RegexModel)
    (readFile : List Char → Except (List Char) (List Char))
    (coloring : Bool) (path : List Char) (mps : List (List Char))
    (hc : ∀ p, ∃ re, compile p = Except.ok re) :
    runMatchPatterns compile readFile coloring path mps = none ∨
    runMatchPatterns compile readFile coloring path mps = some (.ok ()) := by
  induction mps with
  | nil => right; rfl
  | cons rx rest ih =>
    obtain ⟨re, hre⟩ := hc rx
    rw [runMatchPatterns_cons_ok compile readFile coloring path rx rest re hre]
    cases hmf : matchFileM readFile path re coloring with
    | none => left; rfl
    | some r => exact ih

theorem walkPaths_ok
    (compile : List Char → Except (List Char) RegexModel)
    (readFile : List Char → Except (List Char) (List Char))
    (coloring : Bool) (fileRe : RegexModel) (mps : List (List Char))
    (walk : List (Except Unit (List Char)))
    (hc : ∀ p, ∃ re, compile p = Except.ok re) :
    walkPaths compile readFile coloring fileRe mps walk = none ∨
    walkPaths compile readFile coloring fileRe mps walk = some (.ok ()) := by
  induction walk with
  | nil => right; rfl
  | cons entry rest ih =>
    cases entry with
    | error u => exact ih
    | ok path =>
      rw [walkPaths_cons_ok]
      by_cases hm : fileRe.isMatch (comparisonText fileRe.source path) = true
      · rw [if_pos hm]
        rcases runMatchPatterns_ok compile readFile coloring path mps hc with h | h
        · rw [h]; left; rfl
        · rw [h]; exact ih
      · rw [if_neg hm]; exact ih

theorem runFilePatterns_ok
    (compile : List Char → Except (List Char) RegexModel)
    (readFile : List Char → Except (List Char) (List Char))
    (coloring : Bool) (walk : List (Except Unit (List Char)))
    (mps : List (List Char)) (fps : List (List Char))
    (hc : ∀ p, ∃ re, compile p = Except.ok re) :
    runFilePatterns compile readFile coloring walk mps fps = none ∨
    runFilePatterns compile readFile coloring walk mps fps = some (.ok ()) := by
  induction fps with
  | nil => right; rfl
  | cons fp rest ih =>
    obtain ⟨fre, hfre⟩ := hc (trimMatchesChar '/' fp)
    rw [runFilePatterns_cons_ok compile readFile coloring walk mps fp rest fre hfre]
    rcases walkPaths_ok compile readFile coloring fre mps walk hc with h | h
    · rw [h]; left; rfl
    · rw [h]; exact ih

/-- C6: during a scan, a `NoMatch` result or a file-read failure for one
(path, match-pattern) pair never aborts the remaining paths or patterns —
when every pattern compiles, the scan returns success whatever the
filesystem and the match results are — whereas a compilation failure of a
file-selector pattern or of a match-pattern aborts the whole scan with a
`ParseFailure`. -/
theorem scan_error_policy :
    (∀ (compile : List Char → Except (List Char) RegexModel)
       (walk : List (Except Unit (List Char)))
       (readFile : List Char → Except (List Char) (List Char))
       (coloring : Bool) (matchers : List CustomMatcher),
       (∀ p, ∃ re, compile p = Except.ok re) →
       renovateScan compile walk readFile coloring matchers = none ∨
       renovateScan compile walk readFile coloring matchers = some (.ok ())) ∧
    (∀ (compile : List Char → Except (List Char) RegexModel)
       (walk : List (Except Unit (List Char)))
       (readFile : List Char → Except (List Char) (List Char))
       (coloring : Bool) (kind sel : List Char)
       (fps mps : List (List Char)) (rest : List CustomMatcher) (e : List Char),
       kind.map Char.toLower = "regex".data →
       compile (trimMatchesChar '/' sel) = Except.error e →
       renovateScan compile walk readFile coloring
         ({ type_ := kind, file_patterns := sel :: fps, regexes := mps } :: rest) =
         some (.error (.parseFailure ("Failed to parse file pattern regex: ".data ++ e)))) ∧
    (∀ (compile : List Char → Except (List Char) RegexModel)
       (walkRest : List (Except Unit (List Char)))
       (readFile : List Char → Except (List Char) (List Char))
       (coloring : Bool) (kind sel path mp : List Char)
       (fps mps : List (List Char)) (rest : List CustomMatcher)
       (fre : RegexModel) (e : List Char),
       kind.map Char.toLower = "regex".data →
       compile (trimMatchesChar '/' sel) = Except.ok fre →
       fre.isMatch (comparisonText fre.source path) = true →
       compile mp = Except.error e →
       renovateScan compile (.ok path :: walkRest) readFile coloring
         ({ type_ := kind, file_patterns := sel :: fps, regexes := mp :: mps } :: rest) =
         some (.error (.parseFailure ("Failed to parse regex: ".data ++ e)))) := by
  refine ⟨?_, ?_, ?_⟩
  · intro compile walk readFile coloring matchers hc
    induction matchers with
    | nil => right; rfl
    | cons m rest ih =>
      rw [renovateScan_cons]
      by_cases hk : m.type_.map Char.toLower = "regex".data
      · rw [if_pos hk]
        rcases runFilePatterns_ok compile readFile coloring walk m.regexes
          m.file_patterns hc with h | h
        · rw [h]; left; rfl
        · rw [h]; exact ih
      · rw [if_neg hk]; exact ih
  · intro compile walk readFile coloring kind sel fps mps rest e hk hcomp
    rw [renovateScan_cons, if_pos hk,
      runFilePatterns_cons_err compile readFile coloring walk mps sel fps e hcomp]
  · intro compile walkRest readFile coloring kind sel path mp fps mps rest fre e
      hk hcsel hsel hmp
    rw [renovateScan_cons, if_pos hk,
      runFilePatterns_cons_ok compile readFile coloring (.ok path :: walkRest)
        (mp :: mps) sel fps fre hcsel,
      walkPaths_cons_ok, if_pos hsel,
      runMatchPatterns_cons_err compile readFile coloring path mp mps e hmp]

/-- C6 witness: with a read-failing filesystem the scan still succeeds when
everything compiles; a failing selector compile and a failing match-pattern
compile each abort with a `ParseFailure`. -/
theorem scan_error_policy_witness :
    (renovateScan c6compileOk c6walk c6read false c6matchers = none ∨
     renovateScan c6compileOk c6walk c6read false c6matchers = some (.ok ())) ∧
    renovateScan c6compileBad c6walk c6read false c6matchers =
      some (.error (.parseFailure
        ("Failed to parse file pattern regex: ".data ++ "bad".data))) ∧
    renovateScan c6compileSel c6walk c6read false c6matchers =
      some (.error (.parseFailure ("Failed to parse regex: ".data ++ "bad".data))) := by
  refine ⟨?_, ?_, ?_⟩
  · exact scan_error_policy.1 c6compileOk c6walk c6read false c6matchers
      (fun p => ⟨dummyRe, rfl⟩)
  · exact scan_error_policy.2.1 c6compileBad c6walk c6read false "Regex".data
      "/x/".data [] ["y".data] [] "bad".data (by decide) rfl
  · exact scan_error_policy.2.2 c6compileSel [.error ()] c6read false "Regex".data
      "/x/".data "a.txt".data "y".data [] [] [] dummyRe "bad".data
      (by decide) rfl (by decide) rfl

theorem ccount_cons_self (c : Char) (l : List Char) :
    ccount c (c :: l) = ccount c l + 1 := by
  simp [ccount]
  omega

theorem ccount_cons_ne (c x : Char) (l : List Char) (h : ¬ x = c) :
    ccount c (x :: l) = ccount c l := by
  simp [ccount, h]

theorem findSub_of_first (pat s : List Char) (i t : Nat)
    (hocc : pat.isPrefixOf (s.drop t) = true)
    (hmin : ∀ j, j < t → pat.isPrefixOf (s.drop j) = false) :
    findSub pat s i = some (i + t) := by
  induction s generalizing i t with
  | nil =>
    have ht : t = 0 := by
      by_contra hth
      have h0 := hmin 0 (Nat.pos_of_ne_zero hth)
      rw [List.drop_nil] at hocc h0
      rw [hocc] at h0
      cases h0
    subst ht
    rw [List.drop_nil] at hocc
    rw [findSub, if_pos hocc, Nat.add_zero]
  | cons c rest ih =>
    cases t with
    | zero =>
      rw [List.drop_zero] at hocc
      rw [findSub, if_pos hocc, Nat.add_zero]
    | succ t' =>
      have h0 : pat.isPrefixOf (c :: rest) = false := by
        have := hmin 0 (Nat.succ_pos _)
        rwa [List.drop_zero] at this
      rw [findSub, if_neg (by rw [h0]; exact Bool.false_ne_true)]
      have hrec := ih (i + 1) t' (by rwa [List.drop_succ_cons] at hocc)
        (fun j hj => by
          have := hmin (j + 1) (by omega)
          rwa [List.drop_succ_cons] at this)
      rw [hrec, show i + 1 + t' = i + (t' + 1) by omega]

theorem rfindChar_none (c : Char) (l : List Char)
    (h : ∀ j, j < l.length → l.get? j ≠ some c) : rfindChar c l = none := by
  induction l with
  | nil => rfl
  | cons x rest ih =>
    have hrest : rfindChar c rest = none := ih (fun j hj => by
      have := h (j + 1) (by simp; omega)
      rwa [List.get?_cons_succ] at this)
    have hx : ¬ x = c := by
      have := h 0 (by simp)
      simpa using this
    rw [rfindChar, hrest]
    simp [hx]

theorem rfindChar_last (c : Char) (l : List Char) (j : Nat)
    (hj : l.get? j = some c)
    (hmax : ∀ i, j < i → i < l.length → l.get? i ≠ some c) :
    rfindChar c l = some j := by
  induction l generalizing j with
  | nil => simp at hj
  | cons x rest ih =>
    cases j with
    | zero =>
      have hx : x = c := by simpa using hj
      have hrest : rfindChar c rest = none := rfindChar_none c rest (fun i hi => by
        have := hmax (i + 1) (Nat.succ_pos _) (by simp; omega)
        rwa [List.get?_cons_succ] at this)
      rw [rfindChar, hrest]
      simp [hx]
    | succ j' =>
      have hj' : rest.get? j' = some c := by rwa [List.get?_cons_succ] at hj
      have hrest : rfindChar c rest = some j' := ih j' hj' (fun i hji hil => by
        have := hmax (i + 1) (by omega) (by simp; omega)
        rwa [List.get?_cons_succ] at this)
      rw [rfindChar, hrest]

theorem scanEnd_cons_open (rest : List Char) (i d : Nat) (acc : Option Nat) :
    scanEnd ('(' :: rest) i d acc = scanEnd rest (i + 1) (d + 1) acc := by
  rw [scanEnd]
  simp

theorem scanEnd_cons_close_one (rest : List Char) (i : Nat) (acc : Option Nat) :
    scanEnd (')' :: rest) i 1 acc = some (i + 1) := by
  rw [scanEnd]
  simp

theorem scanEnd_cons_close (rest : List Char) (i d : Nat) (acc : Option Nat)
    (hd : ¬ d - 1 = 0) :
    scanEnd (')' :: rest) i d acc = scanEnd rest (i + 1) (d - 1) (some (i + 1)) := by
  rw [scanEnd]
  simp [hd]

theorem scanEnd_cons_other (rest : List Char) (i d : Nat) (acc : Option Nat)
    (c : Char) (hop : ¬ c = '(') (hcl : ¬ c = ')') (hd : ¬ d = 0) :
    scanEnd (c :: rest) i d acc = scanEnd rest (i + 1) d acc := by
  rw [scanEnd]
  simp [hop, hcl, hd]

theorem scanEnd_eq (t : List Char) (i d k : Nat) (acc : Option Nat)
    (hd : 1 ≤ d) (hk : k ≤ t.length)
    (hbal : ccount ')' (t.take k) = ccount '(' (t.take k) + d)
    (hmin : ∀ j, j < k → ccount ')' (t.take j) < ccount '(' (t.take j) + d) :
    scanEnd t i d acc = some (i + k) := by
  induction t generalizing i d k acc with
  | nil =>
    have hk0 : k = 0 := by simpa using hk
    subst hk0
    simp [ccount] at hbal
    omega
  | cons c rest ih =>
    have hkpos : k ≠ 0 := by
      intro h0
      subst h0
      simp [ccount] at hbal
      omega
    obtain ⟨k', rfl⟩ : ∃ k', k = k' + 1 := ⟨k - 1, by omega⟩
    have hk' : k' ≤ rest.length := by
      simp at hk
      omega
    rw [List.take_succ_cons] at hbal
    by_cases hop : c = '('
    · subst hop
      have hbal' : ccount ')' (rest.take k') = ccount '(' (rest.take k') + (d + 1) := by
        rw [ccount_cons_self, ccount_cons_ne _ _ _ (by decide)] at hbal
        omega
      have hmin' : ∀ j, j < k' →
          ccount ')' (rest.take j) < ccount '(' (rest.take j) + (d + 1) := by
        intro j hj
        have := hmin (j + 1) (by omega)
        rw [List.take_succ_cons, ccount_cons_self, ccount_cons_ne _ _ _ (by decide)] at this
        omega
      have hrec := ih (i + 1) (d + 1) k' acc (by omega) hk' hbal' hmin'
      rw [scanEnd_cons_open, hrec, show i + 1 + k' = i + (k' + 1) by omega]
    · by_cases hcl : c = ')'
      · subst hcl
        rw [ccount_cons_self, ccount_cons_ne _ _ _ (by decide)] at hbal
        by_cases hd1 : d = 1
        · subst hd1
          have hk'0 : k' = 0 := by
            by_contra hk'ne
            have := hmin 1 (by omega)
            rw [List.take_succ_cons, List.take_zero, ccount_cons_self,
              ccount_cons_ne _ _ _ (by decide)] at this
            simp [ccount] at this
          subst hk'0
          rw [scanEnd_cons_close_one]
        · have hbal' : ccount ')' (rest.take k') = ccount '(' (rest.take k') + (d - 1) := by
            omega
          have hmin' : ∀ j, j < k' →
              ccount ')' (rest.take j) < ccount '(' (rest.take j) + (d - 1) := by
            intro j hj
            have := hmin (j + 1) (by omega)
            rw [List.take_succ_cons, ccount_cons_self, ccount_cons_ne _ _ _ (by decide)] at this
            omega
          have hrec := ih (i + 1) (d - 1) k' (some (i + 1)) (by omega) hk' hbal' hmin'
          rw [scanEnd_cons_close rest i d acc (by omega), hrec,
            show i + 1 + k' = i + (k' + 1) by omega]
      · rw [ccount_cons_ne _ _ _ hcl, ccount_cons_ne _ _ _ hop] at hbal
        have hmin' : ∀ j, j < k' →
            ccount ')' (rest.take j) < ccount '(' (rest.take j) + d := by
          intro j hj
          have := hmin (j + 1) (by omega)
          rw [List.take_succ_cons, ccount_cons_ne _ _ _ hcl,
            ccount_cons_ne _ _ _ hop] at this
          omega
        have hrec := ih (i + 1) d k' acc hd hk' hbal hmin'
        rw [scanEnd_cons_other rest i d acc c hop hcl (by omega), hrec,
          show i + 1 + k' = i + (k' + 1) by omega]

/-- C1: on a pattern text in which the named group's tag `<name>` first
occurs at `tagPos`, the span-expansion step of `match_file` returns the
half-open range whose start is the last `(` before the tag (`start` below,
characterized as an index holding `(` with no later `(` before the tag) and
whose end is just after the `)` that brings a depth counter started at 1
back to 0 (characterized as the first point after `start` where the closing
parentheses outnumber the opening ones by exactly one, so nested sub-groups
stay enclosed). -/
theorem span_locator_spec (s name : List Char) (tagPos start k : Nat)
    (htag : ('<' :: (name ++ ['>'])).isPrefixOf (s.drop tagPos) = true)
    (htagmin : ∀ j, j < tagPos → ('<' :: (name ++ ['>'])).isPrefixOf (s.drop j) = false)
    (hs1 : start < tagPos)
    (hs2 : s.get? start = some '(')
    (hs3 : ∀ j, j < tagPos → start < j → s.get? j ≠ some '(')
    (hk : k ≤ (s.drop (start + 1)).length)
    (hbal : ccount ')' ((s.drop (start + 1)).take k) =
            ccount '(' ((s.drop (start + 1)).take k) + 1)
    (hmin : ∀ j, j < k → ccount ')' ((s.drop (start + 1)).take j) ≤
            ccount '(' ((s.drop (start + 1)).take j)) :
    spanOf s name = some (start, start + 1 + k) := by
  have hfind : findSub ('<' :: (name ++ ['>'])) s 0 = some tagPos := by
    have h := findSub_of_first ('<' :: (name ++ ['>'])) s 0 tagPos htag htagmin
    rwa [Nat.zero_add] at h
  have hrf : rfindChar '(' (s.take tagPos) = some start := by
    apply rfindChar_last
    · rw [List.get?_take hs1]
      exact hs2
    · intro i hi hil
      have hitag : i < tagPos := by
        have hlen : (s.take tagPos).length ≤ tagPos := by
          simp
        omega
      rw [List.get?_take hitag]
      exact hs3 i hitag hi
  have hscan : scanEnd (s.drop (start + 1)) (start + 1) 1 none = some (start + 1 + k) :=
    scanEnd_eq (s.drop (start + 1)) (start + 1) 1 k none (le_refl 1) hk hbal
      (fun j hj => by
        have := hmin j hj
        omega)
  have h1 : spanOf s name =
      match rfindChar '(' (s.take tagPos) with
      | none => none
      | some start =>
        match scanEnd (s.drop (start + 1)) (start + 1) 1 none with
        | none => none
        | some e => some (start, e) := by
    have h0 : spanOf s name =
        match findSub ('<' :: (name ++ ['>'])) s 0 with
        | none => none
        | some tagPos =>
          match rfindChar '(' (s.take tagPos) with
          | none => none
          | some start =>
            match scanEnd (s.drop (start + 1)) (start + 1) 1 none with
            | none => none
            | some e => some (start, e) := rfl
    rw [h0, hfind]
  have h2 : spanOf s name =
      match scanEnd (s.drop (start + 1)) (start + 1) 1 none with
      | none => none
      | some e => some (start, e) := by
    rw [h1, hrf]
  rw [h2, hscan]

/-- C1 witness: the nested example `(?<outer>a(?<inner>b)c)` — resolving
`outer` yields the span of the whole string, and resolving `inner` yields
the span of `(?<inner>b)`. -/
theorem span_locator_spec_witness :
    spanOf patEx "outer".data = some (0, 23) ∧
    spanOf patEx "inner".data = some (10, 21) ∧
    patEx.length = 23 ∧
    (patEx.drop 10).take 11 = "(?<inner>b)".data := by
  refine ⟨?_, ?_, by decide, by decide⟩
  · have h := span_locator_spec patEx "outer".data 2 0 22 (by decide) (by decide)
      (by decide) (by decide) (by decide) (by decide) (by decide) (by decide)
    simpa using h
  · have h := span_locator_spec patEx "inner".data 12 10 10 (by decide) (by decide)
      (by decide) (by decide) (by decide) (by decide) (by decide) (by decide)
    simpa using h

end Regex404
